import Mathlib

/-! pipeline-builder: the package-dependency contributor and the Azul Zulu version resolver.

A shallow embedding of

* `octo/package_depedencies.go` (`ContributePackageDependencies`,
  `contributePackageDependency`), and
* `actions/azul-zulu-dependency/main.go` (`main`, `Bundle`),

followed by the properties proved about them.

Conventions of the embedding.

* A Go `string` is a `String`; a Go `error` is the `String` of its message.
* A Go `map` written as a literal is the association list of its entries, in
  the order of the literal.
* A Go function returning `(T, error)` whose two results the text of a property
  speaks about separately returns a pair; a collaborator returning `(T, error)`
  is an `Except String T`.
* Effects (a file handed to the TOML decoder, an HTTP request, a write to
  standard output) are recorded in a trace carried by the result.
* Code that the two source files call but do not contain is either a field of
  a `World` record (every theorem then holds for every value of the field) or
  a definition whose doc comment says what it is modelled from.
-/

namespace Octo

/-! ## Data model of the workflow documents (`octo/actions`, `octo/actions/event`) -/

/-- A value of a `map[string]interface{}` entry: the source only stores strings
and booleans in such maps. -/
inductive Value where
  | str (s : String)
  | bool (b : Bool)
deriving DecidableEq, Repr

/-- The Go type `actions.Step`, with the fields the source sets; a field the source leaves
out has Go's zero value (empty string, nil map). -/
structure Step where
  Id : String := ""
  Name : String := ""
  Uses : String := ""
  Run : String := ""
  Env : List (String × String) := []
  With : List (String × Value) := []
deriving DecidableEq, Repr

/-- The Go type `actions.VirtualEnvironment`; the source uses `actions.UbuntuLatest` only. -/
inductive VirtualEnvironment where
  | UbuntuLatest
deriving DecidableEq, Repr

/-- The Go type `actions.Job`. -/
structure Job where
  Name : String := ""
  RunsOn : List VirtualEnvironment := []
  Steps : List Step := []
deriving DecidableEq, Repr

/-- One entry of an `event.Schedule`: the source sets `Minute` only. -/
structure Cron where
  Minute : String := ""
deriving DecidableEq, Repr

/-- The Go type `event.Type`, restricted to the two keys the source uses. -/
inductive EventType where
  | ScheduleType
  | WorkflowDispatchType
deriving DecidableEq, Repr

/-- The Go interface `event.Event`, restricted to the two events the source uses. -/
inductive Event where
  | Schedule (crons : List Cron)
  | WorkflowDispatch
deriving DecidableEq, Repr

/-- The Go type `actions.Workflow`. -/
structure Workflow where
  Name : String := ""
  On : List (EventType × Event) := []
  Jobs : List (String × Job) := []
deriving DecidableEq, Repr

/-- Modelled from the spec: the type `Contribution` (declared in the `octo` package, outside
the two source files). "Contribution: a name (destination file path) paired with a
fully-formed workflow document". -/
structure Contribution where
  Name : String
  Document : Workflow
deriving DecidableEq, Repr

/-- One entry of `_package.Package.Dependencies`; the source reads its `Image` only. -/
structure Dependency where
  Image : String
deriving DecidableEq, Repr

/-- The Go type `_package.Package`, as far as the source reads it. -/
structure Package where
  Dependencies : List Dependency
deriving DecidableEq, Repr

/-- The Go type `Descriptor`, as far as the source reads it: `Path`, and `Package`, a pointer
that is nil (`none`) when the descriptor has no package section. `σ` is the type of the
section's content and `ρ` the type of all the other fields of the descriptor; the source
reads neither. -/
structure Descriptor (σ ρ : Type) where
  Path : String
  Package : Option σ
  Other : ρ

/-- What `ContributePackageDependencies` calls and the two source files do not contain. -/
structure World where
  /-- The package constant `GoVersion`. -/
  GoVersion : String
  /-- The package constant `YJVersion`. -/
  YJVersion : String
  /-- The function `internal.StatikString`: the content of an embedded script. -/
  StatikString : String → String
  /-- The function `NewActionContribution`. -/
  NewActionContribution : Workflow → Except String Contribution
  /-- The function `filepath.Join`, at two arguments. -/
  Join : String → String → String
  /-- The function `toml.DecodeFile` into a `_package.Package`, on the file system of the run. -/
  DecodeFile : String → Except String Package

/-! ## `path/filepath.Base` and the regular expression -/

/-- The Go function `os.IsPathSeparator`, on Unix. -/
def IsPathSeparator (c : Char) : Bool := c == '/'

/-- The Go function `filepath.Base`, on Unix (no volume name): trailing separators are stripped,
then everything up to the last separator; `"."` for the empty path and `"/"` for a path of
separators only. -/
def Base (path : String) : String :=
  if path = "" then "."
  else
    let stripped := (path.toList.reverse.dropWhile IsPathSeparator).reverse
    let last := (stripped.reverse.takeWhile (fun c => !IsPathSeparator c)).reverse
    if last = [] then "/" else String.mk last

/-- The tail of the pattern, `:[^:]+$`, on the rest of the input: a colon, then one or
more characters other than a colon (a newline included), up to the end of the text. -/
def matchTag : List Char → Bool
  | ':' :: t => !t.isEmpty && t.all (fun c => c != ':')
  | _ => false

/-- The pattern `(.+):[^:]+$` on the rest of the input, returning what the group captures.
`.` is any character but a newline; `.+` is greedy, so one more `.` is tried before the tail
of the pattern is. -/
def matchGroup : List Char → Option (List Char)
  | [] => none
  | c :: cs =>
    if c == '\n' then none
    else
      match matchGroup cs with
      | some g => some (c :: g)
      | none => if matchTag cs then some [c] else none

/-- The call `re.FindStringSubmatch` for `re = regexp.MustCompile("^(.+):[^:]+$")`: `none` for
Go's nil, else the whole match (the pattern is anchored at both ends, so the input itself) and
the first group. -/
def FindStringSubmatch (s : String) : Option (List String) :=
  (matchGroup s.toList).map (fun g => [s, String.mk g])

/-! ## `contributePackageDependency` -/

/-- The workflow literal `w` of `contributePackageDependency`. -/
def workflow (world : World) (name : String) : Workflow :=
  { Name := "Update " ++ Base name
    On := [
      (EventType.ScheduleType, Event.Schedule [{ Minute := "0" }]),
      (EventType.WorkflowDispatchType, Event.WorkflowDispatch)]
    Jobs := [
      ("update", {
        Name := "Update Package Dependency"
        RunsOn := [VirtualEnvironment.UbuntuLatest]
        Steps := [
          { Uses := "actions/checkout@v2" },
          { Uses := "actions/setup-go@v2"
            With := [("go-version", Value.str world.GoVersion)] },
          { Name := "Install crane"
            Run := world.StatikString "/install-crane.sh" },
          { Name := "Install yj"
            Run := world.StatikString "/install-yj.sh"
            Env := [("YJ_VERSION", world.YJVersion)] },
          { Name := "Install update-package-dependency"
            Run := world.StatikString "/install-update-package-dependency.sh" },
          { Uses := "GoogleCloudPlatform/github-actions/setup-gcloud@master"
            With := [
              ("service_account_key",
                Value.str "$\x7b\x7b secrets.JAVA_GCLOUD_SERVICE_ACCOUNT_KEY \x7d\x7d")] },
          { Name := "Configure gcloud docker credentials"
            Run := "gcloud auth configure-docker" },
          { Id := "package"
            Name := "Update Package Dependency"
            Run := world.StatikString "/update-package-dependency.sh"
            Env := [("DEPENDENCY", name)] },
          { Uses := "peter-evans/create-pull-request@v3"
            With := [
              ("token", Value.str "$\x7b\x7b secrets.GITHUB_TOKEN \x7d\x7d"),
              ("commit-message", Value.str (
                "Bump " ++ name ++ " from $\x7b\x7b steps.package.outputs.old-version \x7d\x7d to $\x7b\x7b steps.package.outputs.new-version \x7d\x7d\n\nBumps " ++ name ++ " from $\x7b\x7b steps.package.outputs.old-version \x7d\x7d to $\x7b\x7b steps.package.outputs.new-version \x7d\x7d.")),
              ("signoff", Value.bool true),
              ("branch", Value.str ("update-package/" ++ Base name)),
              ("delete-branch", Value.bool true),
              ("title", Value.str (
                "Bump " ++ name ++ " from $\x7b\x7b steps.package.outputs.old-version \x7d\x7d to $\x7b\x7b steps.package.outputs.new-version \x7d\x7d")),
              ("body", Value.str (
                "Bumps [`" ++ name ++ "`](https://" ++ name ++ ") from [`$\x7b\x7b steps.package.outputs.old-version \x7d\x7d`](https://" ++ name ++ ":$\x7b\x7b steps.package.outputs.old-version \x7d\x7d) to [`$\x7b\x7b steps.package.outputs.new-version \x7d\x7d`](https://" ++ name ++ ":$\x7b\x7b steps.package.outputs.new-version \x7d\x7d).")),
              ("labels", Value.str "semver:minor, type:dependency-upgrade")] }] })] }

/-- The Go function `contributePackageDependency`: the workflow literal handed to
`NewActionContribution`. -/
def contributePackageDependency (world : World) (name : String) : Except String Contribution :=
  world.NewActionContribution (workflow world name)

/-! ## `ContributePackageDependencies` -/

/-- The `for _, d := range p.Dependencies` loop of `ContributePackageDependencies`, from the
dependencies still to visit and the `contributions` appended so far, to the two values the
function returns: the slice (`[]` for nil) and the error (`none` for nil). -/
def contributeLoop (world : World) :
    List Dependency → List Contribution → List Contribution × Option String
  | [], contributions => (contributions, none)
  | d :: rest, contributions =>
    match FindStringSubmatch d.Image with
    | none => ([], some ("unable to parse image coordinates from " ++ d.Image))
    | some g =>
      match contributePackageDependency world (g.getD 1 "") with
      | .error err => ([], some err)
      | .ok c => contributeLoop world rest (contributions ++ [c])

/-- What one call of `ContributePackageDependencies` returns and does. -/
structure Outcome where
  /-- The first result, `[]` for a nil slice. -/
  contributions : List Contribution
  /-- The second result, `none` for a nil error. -/
  err : Option String
  /-- The files handed to `toml.DecodeFile`, in order. -/
  decoded : List String
deriving DecidableEq, Repr

/-- The Go function `ContributePackageDependencies`. -/
def ContributePackageDependencies {σ ρ : Type} (world : World) (descriptor : Descriptor σ ρ) :
    Outcome :=
  match descriptor.Package with
  | none => { contributions := [], err := none, decoded := [] }
  | some _ =>
    let file := world.Join descriptor.Path "package.toml"
    match world.DecodeFile file with
    | .error err =>
      { contributions := [], err := some ("unable to decode " ++ file ++ "\n" ++ err),
        decoded := [file] }
    | .ok p =>
      let r := contributeLoop world p.Dependencies []
      { contributions := r.1, err := r.2, decoded := [file] }

/-! ## Vocabulary of the properties -/

/-- An image coordinate `n ++ ":" ++ t` with a name and a tag: the name `n` is not empty and
has no newline, the tag `t` is not empty and has no colon. -/
def NameTag (n t : String) : Prop :=
  n ≠ "" ∧ '\n' ∉ n.toList ∧ t ≠ "" ∧ ':' ∉ t.toList

instance (n t : String) : Decidable (NameTag n t) := by
  unfold NameTag
  infer_instance

/-- An image coordinate lacking a colon-delimited tag: it has no `:` at all, or nothing comes
after its last `:`. -/
def lacksTag (image : String) : Prop :=
  ':' ∉ image.toList ∨ image.toList.getLast? = some ':'

instance (image : String) : Decidable (lacksTag image) := by
  unfold lacksTag
  infer_instance

/-- The name `ContributePackageDependencies` extracts from an image coordinate, `g[1]`, when
the coordinate matches. -/
def extractedName (image : String) : Option String :=
  (FindStringSubmatch image).map (fun g => g.getD 1 "")

/-- The contribution `c` is the one the loop builds for the dependency `d`. -/
def Built (world : World) (d : Dependency) (c : Contribution) : Prop :=
  ∃ n, extractedName d.Image = some n ∧ contributePackageDependency world n = .ok c

/-- The steps of the workflow's jobs that have the given id, in order. -/
def stepsWithId (w : Workflow) (id : String) : List Step :=
  (w.Jobs.map (fun j => j.2.Steps)).flatten.filter (fun s => s.Id == id)

/-- The steps of the job `update` of the workflow built for a dependency name. -/
def updateSteps (world : World) (name : String) : List Step :=
  ((workflow world name).Jobs.filter (fun j => j.1 == "update")).flatMap (fun j => j.2.Steps)

/-- The last path segment of a name: what follows its last `/`, the whole name when it has
none. -/
def lastSegment (name : String) : String :=
  String.mk (name.toList.reverse.takeWhile (fun c => c != '/')).reverse

/-- A step without the entries of `With` under the given keys. -/
def Step.withoutKeys (s : Step) (keys : List String) : Step :=
  { s with With := s.With.filter (fun kv => !keys.contains kv.1) }

/-- Modelled from the spec: the function `NewActionContribution` (declared in the `octo`
package, outside the two source files). "Contribution: a name (destination file path) paired
with a fully-formed workflow document". The spec does not say how the name is obtained from
the workflow; this model takes the workflow's own name, and is used at concrete inputs
only. -/
def NewActionContribution (w : Workflow) : Except String Contribution :=
  .ok { Name := w.Name, Document := w }

/-- A world to evaluate the functions at concrete inputs: every `package.toml` decodes to the
dependencies with the given images, paths are joined with `/`, an embedded script is
represented by its path, and the two version constants have sample values. -/
def exampleWorld (images : List String) : World :=
  { GoVersion := "1.15"
    YJVersion := "5.0.0"
    StatikString := fun path => path
    NewActionContribution := NewActionContribution
    Join := fun dir file => dir ++ "/" ++ file
    DecodeFile := fun _ => .ok { Dependencies := images.map Dependency.mk } }

/-- A descriptor with a package section, to evaluate the functions at concrete inputs. -/
def exampleDescriptor : Descriptor Unit Unit :=
  { Path := "repo", Package := some (), Other := () }

end Octo

namespace AzulZulu

/-! ## Data model of the version resolver (`actions/azul-zulu-dependency/main.go`) -/

/-- A Go `map[string]string` (`actions.Inputs`, `actions.Versions`, `actions.Outputs`): the
association list of its entries. -/
abbrev StringMap := List (String × String)

/-- The Go form `v, ok := m[k]`: `none` when `ok` is false. -/
def StringMap.get? : StringMap → String → Option String
  | [], _ => none
  | (key, value) :: m, k => if key = k then some value else StringMap.get? m k

/-- The Go form `m[k]`: the empty string for a key the map does not have. -/
def StringMap.index (m : StringMap) (k : String) : String :=
  (m.get? k).getD ""

/-- The Go statement `m[k] = v`: the value under `k` is replaced, or the entry added. -/
def StringMap.assign : StringMap → String → String → StringMap
  | [], k, v => [(k, v)]
  | (key, value) :: m, k, v =>
    if key = k then (k, v) :: m else (key, value) :: StringMap.assign m k v

/-- The Go type `Bundle`: the decoded JSON payload. -/
structure Bundle where
  JDKVersion : List Int
  URL : String
deriving DecidableEq, Repr

/-- The Go type `*http.Response`, as far as `main` reads it. -/
structure Response where
  StatusCode : Int
  Body : String
deriving DecidableEq, Repr

/-- The type `*semver.Version`, as far as `main` and the selector read it: the three
components and the string the version was parsed from (`Original()`). -/
structure Version where
  Major : Nat
  Minor : Nat
  Patch : Nat
  Original : String
deriving DecidableEq, Repr

/-- What `main` calls and the source file does not contain. -/
structure World where
  /-- The result of `actions.NewInputs()`. -/
  NewInputs : StringMap
  /-- The function `http.Get`, on the network of the run. -/
  Get : String → Except String Response
  /-- The call `json.NewDecoder(resp.Body).Decode(&raw)`, from the body. -/
  Decode : String → Except String Bundle
  /-- The method `Versions.GetLatestVersion`, from the catalog and the inputs. -/
  GetLatestVersion : StringMap → StringMap → Except String Version
  /-- The function `actions.NewOutputs`, from the uri and the version (the third argument is
  always nil). -/
  NewOutputs : String → Version → Except String StringMap

/-- What a run of `main` does, in order. -/
inductive Event where
  /-- The request `http.Get(uri)`. -/
  | Get (uri : String)
  /-- The JSON decode of the response body. -/
  | Decode (body : String)
  /-- The call `versions.GetLatestVersion(inputs)`. -/
  | GetLatestVersion (versions : StringMap) (inputs : StringMap)
  /-- The call `actions.NewOutputs(uri, latestVersion, nil)`. -/
  | NewOutputs (uri : String) (latestVersion : Version)
  /-- The call `outputs.Write(os.Stdout)`: the only write to standard output. -/
  | Write (outputs : StringMap)
deriving DecidableEq, Repr

/-- One run of `main`. -/
structure Run where
  /-- What the body of `main` did, in order. -/
  events : List Event
  /-- The message of the panic that aborted the run; `none` when `main` returned. -/
  panic : Option String
  /-- Whether the deferred `resp.Body.Close()` ran when `main` was left. -/
  closed : Bool
deriving DecidableEq, Repr

/-- The verb `%d` of `fmt.Sprintf` at an `int`. -/
def Sprintd : Int → String
  | Int.ofNat n => Nat.repr n
  | Int.negSucc n => "-" ++ Nat.repr (n + 1)

/-- The `uri` of `main`, from the inputs `type` and `version`. -/
def uri (t v : String) : String :=
  "https://api.azul.com/zulu/download/community/v1.0/bundles/latest/" ++
    "?arch=x86" ++
    "&ext=tar.gz" ++
    "&features=" ++ t ++
    "&hw_bitness=64" ++
    "&jdk_version=" ++ v ++
    "&os=linux" ++
    "&javafx=false"

/-- The Go function `main`. A Go panic ends the run at once, its message going to standard
error; the deferred `resp.Body.Close()` runs whenever `main` is left after the `defer`
statement. An index expression `raw.JDKVersion[i]` past the end of the slice is a run-time
panic. The only statement of `main` that names `os.Stdout` is `outputs.Write(os.Stdout)`; the
collaborators are taken not to write to standard output. -/
def main (world : World) : Run :=
  let inputs := world.NewInputs
  match inputs.get? "type" with
  | none => { events := [], panic := some "type must be specified", closed := false }
  | some t =>
    match inputs.get? "version" with
    | none => { events := [], panic := some "version must be specified", closed := false }
    | some v =>
      match world.Get (uri t v) with
      | .error err =>
        { events := [.Get (uri t v)]
          panic := some ("unable to get " ++ uri t v ++ "\n" ++ err)
          closed := false }
      | .ok resp =>
        if resp.StatusCode ≠ 200 then
          { events := [.Get (uri t v)]
            panic := some ("unable to download " ++ uri t v ++ ": " ++ Sprintd resp.StatusCode)
            closed := true }
        else
          match world.Decode resp.Body with
          | .error err =>
            { events := [.Get (uri t v), .Decode resp.Body]
              panic := some ("unable to decode payload\n" ++ err)
              closed := true }
          | .ok raw =>
            match raw.JDKVersion with
            | a :: b :: c :: _ =>
              let versions : StringMap :=
                [(Sprintd a ++ "." ++ Sprintd b ++ "." ++ Sprintd c, raw.URL)]
              match world.GetLatestVersion versions inputs with
              | .error err =>
                { events := [.Get (uri t v), .Decode resp.Body,
                    .GetLatestVersion versions inputs]
                  panic := some ("unable to get latest version\n" ++ err)
                  closed := true }
              | .ok latestVersion =>
                match world.NewOutputs (versions.index latestVersion.Original) latestVersion with
                | .error err =>
                  { events := [.Get (uri t v), .Decode resp.Body,
                      .GetLatestVersion versions inputs,
                      .NewOutputs (versions.index latestVersion.Original) latestVersion]
                    panic := some ("unable to create outputs\n" ++ err)
                    closed := true }
                | .ok outputs =>
                  let outputs :=
                    if latestVersion.Major = 8 then
                      outputs.assign "cpe" ("update" ++ Nat.repr latestVersion.Patch)
                    else outputs
                  { events := [.Get (uri t v), .Decode resp.Body,
                      .GetLatestVersion versions inputs,
                      .NewOutputs (versions.index latestVersion.Original) latestVersion,
                      .Write outputs]
                    panic := none
                    closed := true }
            | short =>
              { events := [.Get (uri t v), .Decode resp.Body]
                panic := some ("runtime error: index out of range [" ++
                  Nat.repr short.length ++ "] with length " ++ Nat.repr short.length)
                closed := true }

/-! ## The collaborators, modelled -/

/-- The decimal number a list of digits writes, onto the digits read so far; `none` when a
character is not a digit. -/
def parseDigits : List Char → Nat → Option Nat
  | [], acc => some acc
  | c :: cs, acc => if c.isDigit then parseDigits cs (acc * 10 + (c.toNat - '0'.toNat)) else none

/-- The number a non-empty list of decimal digits writes. -/
def parseNat (cs : List Char) : Option Nat :=
  if cs = [] then none else parseDigits cs 0

/-- The pieces of a text between the occurrences of a separator. -/
def splitOn (sep : Char) : List Char → List (List Char)
  | [] => [[]]
  | c :: cs =>
    if c = sep then [] :: splitOn sep cs
    else
      match splitOn sep cs with
      | [] => [[c]]
      | piece :: pieces => (c :: piece) :: pieces

/-- Modelled from the spec: the parsing of a catalog key into a version, done by the absent
selector. "ResolvedVersion: a parsed semantic version plus its original string form"; the
keys are "the dotted-triple string", so a key parses when it is three decimal numbers
separated by dots. -/
def parseVersion (s : String) : Option Version :=
  match splitOn '.' s.toList with
  | [x, y, z] =>
    match parseNat x, parseNat y, parseNat z with
    | some a, some b, some c => some { Major := a, Minor := b, Patch := c, Original := s }
    | _, _, _ => none
  | _ => none

/-- The order of semantic versions: by major, then minor, then patch. -/
def Version.lt (v w : Version) : Bool :=
  v.Major < w.Major || (v.Major == w.Major && (v.Minor < w.Minor ||
    (v.Minor == w.Minor && v.Patch < w.Patch)))

/-- The maximum of a list of versions, `none` for the empty list. -/
def latest : List Version → Option Version
  | [] => none
  | v :: vs =>
    match latest vs with
    | none => some v
    | some w => if v.lt w then some w else some v

/-- Modelled from the spec: the method `Versions.GetLatestVersion` (package `actions`,
outside the source file). "given a set of versions and an optional constraint, return the
maximum satisfying version or a NotFound error"; it "applies any user-supplied version
constraint from the inputs". How the inputs express the constraint is not specified: it is
the parameter `satisfies`. -/
def GetLatestVersion (satisfies : StringMap → Version → Bool) (versions inputs : StringMap) :
    Except String Version :=
  match latest ((versions.filterMap (fun kv => parseVersion kv.1)).filter (satisfies inputs)) with
  | none => .error "no version satisfies the constraint"
  | some v => .ok v

/-- Modelled from the spec: the function `actions.NewOutputs` (package `actions`, outside the
source file). "Assemble an output set with the resolved version, its URL"; the named outputs
are `version` and `uri`. Construction can fail ("any failure at any step aborts the process");
when it does is not specified: it is the parameter `failure`, the error for a uri and a
version if there is one. -/
def NewOutputs (failure : String → Version → Option String) (uri : String)
    (latestVersion : Version) : Except String StringMap :=
  match failure uri latestVersion with
  | some err => .error err
  | none => .ok [("uri", uri), ("version", latestVersion.Original)]

/-- The world of a run whose selector and output constructor are the modelled ones. -/
def modelWorld (satisfies : StringMap → Version → Bool)
    (failure : String → Version → Option String) (inputs : StringMap)
    (get : String → Except String Response) (decode : String → Except String Bundle) : World :=
  { NewInputs := inputs
    Get := get
    Decode := decode
    GetLatestVersion := GetLatestVersion satisfies
    NewOutputs := NewOutputs failure }

/-- A world to evaluate `main` at concrete inputs: the inputs `type = jdk` and
`version = 11`, every request answered with the given status and body, the body decoded to
the given bundle, no constraint on the version, no failure of the output constructor. -/
def exampleWorld (status : Int) (bundle : Bundle) : World :=
  modelWorld (fun _ _ => true) (fun _ _ => none) [("type", "jdk"), ("version", "11")]
    (fun _ => .ok { StatusCode := status, Body := "body" }) (fun _ => .ok bundle)

/-! ## Vocabulary of the properties -/

/-- What a run wrote to standard output: the output sets of its `Write` events, in order. -/
def Run.stdout (r : Run) : List StringMap :=
  r.events.filterMap (fun e => match e with
    | .Write outputs => some outputs
    | _ => none)

/-- Every step of `main` before the write succeeds: both inputs are present, the request is
answered with status 200, the body decodes to a bundle with at least three version
components, the selector returns `latestVersion` and the output constructor returns
`outputs`. -/
def Succeeds (world : World) (latestVersion : Version) (outputs : StringMap) : Prop :=
  ∃ t v resp raw a b c rest,
    world.NewInputs.get? "type" = some t ∧
    world.NewInputs.get? "version" = some v ∧
    world.Get (uri t v) = .ok resp ∧
    resp.StatusCode = 200 ∧
    world.Decode resp.Body = .ok raw ∧
    raw.JDKVersion = a :: b :: c :: rest ∧
    world.GetLatestVersion
      [(Sprintd a ++ "." ++ Sprintd b ++ "." ++ Sprintd c, raw.URL)] world.NewInputs =
        .ok latestVersion ∧
    world.NewOutputs
      (StringMap.index [(Sprintd a ++ "." ++ Sprintd b ++ "." ++ Sprintd c, raw.URL)]
        latestVersion.Original) latestVersion = .ok outputs

/-- A run fails at a step, every earlier step having succeeded: the `type` or the `version`
input is missing, the request fails in transport, the status is not 200, the body does not
decode, the decoded `jdk_version` has fewer than three entries, the selector returns an
error, or the output constructor returns an error. -/
inductive Fails (world : World) : Prop where
  | typeMissing (ht : world.NewInputs.get? "type" = none)
  | versionMissing (hv : world.NewInputs.get? "version" = none)
  | transport (t v err : String) (ht : world.NewInputs.get? "type" = some t)
      (hv : world.NewInputs.get? "version" = some v) (hget : world.Get (uri t v) = .error err)
  | status (t v : String) (resp : Response) (ht : world.NewInputs.get? "type" = some t)
      (hv : world.NewInputs.get? "version" = some v) (hget : world.Get (uri t v) = .ok resp)
      (hs : resp.StatusCode ≠ 200)
  | undecodable (t v : String) (resp : Response) (err : String)
      (ht : world.NewInputs.get? "type" = some t)
      (hv : world.NewInputs.get? "version" = some v) (hget : world.Get (uri t v) = .ok resp)
      (hs : resp.StatusCode = 200) (hd : world.Decode resp.Body = .error err)
  | short (t v : String) (resp : Response) (raw : Bundle)
      (ht : world.NewInputs.get? "type" = some t)
      (hv : world.NewInputs.get? "version" = some v) (hget : world.Get (uri t v) = .ok resp)
      (hs : resp.StatusCode = 200) (hd : world.Decode resp.Body = .ok raw)
      (hlen : raw.JDKVersion.length < 3)
  | selector (t v : String) (resp : Response) (raw : Bundle) (a b c : Int) (rest : List Int)
      (err : String) (ht : world.NewInputs.get? "type" = some t)
      (hv : world.NewInputs.get? "version" = some v) (hget : world.Get (uri t v) = .ok resp)
      (hs : resp.StatusCode = 200) (hd : world.Decode resp.Body = .ok raw)
      (hj : raw.JDKVersion = a :: b :: c :: rest)
      (hsel : world.GetLatestVersion
        [(Sprintd a ++ "." ++ Sprintd b ++ "." ++ Sprintd c, raw.URL)] world.NewInputs =
          .error err)
  | outputs (t v : String) (resp : Response) (raw : Bundle) (a b c : Int) (rest : List Int)
      (latestVersion : Version) (err : String) (ht : world.NewInputs.get? "type" = some t)
      (hv : world.NewInputs.get? "version" = some v) (hget : world.Get (uri t v) = .ok resp)
      (hs : resp.StatusCode = 200) (hd : world.Decode resp.Body = .ok raw)
      (hj : raw.JDKVersion = a :: b :: c :: rest)
      (hsel : world.GetLatestVersion
        [(Sprintd a ++ "." ++ Sprintd b ++ "." ++ Sprintd c, raw.URL)] world.NewInputs =
          .ok latestVersion)
      (hout : world.NewOutputs
        (StringMap.index [(Sprintd a ++ "." ++ Sprintd b ++ "." ++ Sprintd c, raw.URL)]
          latestVersion.Original) latestVersion = .error err)

end AzulZulu

/-! # Properties -/

namespace Octo

/-! ## The regular expression -/

theorem matchTag_eq_false_of_not_mem {l : List Char} (h : ':' ∉ l) : matchTag l = false := by
  cases l with
  | nil => rfl
  | cons c cs =>
    have hc : c ≠ ':' := fun e => h (by simp [e])
    unfold matchTag
    split
    · next heq => cases heq; exact absurd rfl hc
    · rfl

theorem matchGroup_eq_none_of_not_mem {l : List Char} (h : ':' ∉ l) : matchGroup l = none := by
  induction l with
  | nil => rfl
  | cons c cs ih =>
    have hcs : ':' ∉ cs := fun m => h (List.mem_cons_of_mem _ m)
    simp [matchGroup, ih hcs, matchTag_eq_false_of_not_mem hcs]

theorem matchTag_cons_colon {t : List Char} (ht : t ≠ []) (hc : ':' ∉ t) :
    matchTag (':' :: t) = true := by
  cases t with
  | nil => exact absurd rfl ht
  | cons a as =>
    simp only [matchTag, List.isEmpty_cons, Bool.not_false, Bool.true_and, List.all_eq_true]
    intro x hx
    have : x ≠ ':' := fun e => hc (e ▸ hx)
    simpa using this

theorem matchGroup_append {n t : List Char} (hn : n ≠ []) (hnl : '\n' ∉ n) (ht : t ≠ [])
    (hc : ':' ∉ t) : matchGroup (n ++ ':' :: t) = some n := by
  induction n with
  | nil => exact absurd rfl hn
  | cons c cs ih =>
    have hc' : c ≠ '\n' := fun e => hnl (by simp [e])
    have hcs : '\n' ∉ cs := fun m => hnl (List.mem_cons_of_mem _ m)
    by_cases hnil : cs = []
    · subst hnil
      have h1 : matchGroup (':' :: t) = none := by
        simp [matchGroup, matchGroup_eq_none_of_not_mem hc, matchTag_eq_false_of_not_mem hc]
      show matchGroup (c :: ':' :: t) = some [c]
      rw [matchGroup, h1]
      simp [hc', matchTag_cons_colon ht hc]
    · show matchGroup (c :: (cs ++ ':' :: t)) = some (c :: cs)
      rw [matchGroup, ih hnil hcs]
      simp [hc']

theorem matchGroup_append_colon (l : List Char) : matchGroup (l ++ [':']) = none := by
  induction l with
  | nil => simp [matchGroup, matchTag]
  | cons c cs ih =>
    have h2 : matchTag (cs ++ [':']) = false := by
      cases cs with
      | nil => simp [matchTag]
      | cons a as =>
        by_cases ha : a = ':'
        · subst ha
          simp [matchTag]
        · simp only [List.cons_append]
          unfold matchTag
          split
          · next heq => cases heq; exact absurd rfl ha
          · rfl
    show matchGroup (c :: (cs ++ [':'])) = none
    rw [matchGroup, ih, h2]
    simp

theorem FindStringSubmatch_nameTag {n t : String} (h : NameTag n t) :
    FindStringSubmatch (n ++ ":" ++ t) = some [n ++ ":" ++ t, n] := by
  obtain ⟨hn, hnl, ht, hc⟩ := h
  have hn' : n.toList ≠ [] := fun e => hn (String.ext e)
  have ht' : t.toList ≠ [] := fun e => ht (String.ext e)
  have hl : (n ++ ":" ++ t).toList = n.toList ++ ':' :: t.toList := by simp
  unfold FindStringSubmatch
  rw [hl, matchGroup_append hn' hnl ht' hc]
  rfl

theorem FindStringSubmatch_lacksTag {image : String} (h : lacksTag image) :
    FindStringSubmatch image = none := by
  unfold FindStringSubmatch
  rcases h with h | h
  · rw [matchGroup_eq_none_of_not_mem h]
    rfl
  · obtain ⟨l, hl⟩ : ∃ l, image.toList = l ++ [':'] := by
      rcases List.eq_nil_or_concat image.toList with e | ⟨l, b, e⟩
      · rw [e] at h
        cases h
      · refine ⟨l, ?_⟩
        rw [e, List.concat_eq_append, List.getLast?_concat] at h
        cases h
        rw [e, List.concat_eq_append]
    rw [hl, matchGroup_append_colon]
    rfl

theorem extractedName_nameTag {n t : String} (h : NameTag n t) :
    extractedName (n ++ ":" ++ t) = some n := by
  unfold extractedName
  rw [FindStringSubmatch_nameTag h]
  rfl

theorem extractedName_lacksTag {image : String} (h : lacksTag image) :
    extractedName image = none := by
  unfold extractedName
  rw [FindStringSubmatch_lacksTag h]
  rfl

/-! ## The loop -/

theorem contributeLoop_cons (world : World) (d : Dependency) (rest : List Dependency)
    (acc : List Contribution) :
    contributeLoop world (d :: rest) acc =
      match extractedName d.Image with
      | none => ([], some ("unable to parse image coordinates from " ++ d.Image))
      | some n =>
        match contributePackageDependency world n with
        | .error err => ([], some err)
        | .ok c => contributeLoop world rest (acc ++ [c]) := by
  rw [contributeLoop]
  unfold extractedName
  cases FindStringSubmatch d.Image <;> rfl

theorem contributeLoop_of_built (world : World) {deps : List Dependency}
    {cs : List Contribution} (h : List.Forall₂ (Built world) deps cs) (acc : List Contribution) :
    contributeLoop world deps acc = (acc ++ cs, none) := by
  induction h generalizing acc with
  | nil => simp [contributeLoop]
  | @cons d c deps cs hd _ ih =>
    obtain ⟨n, hn, hc⟩ := hd
    rw [contributeLoop_cons, hn]
    simp only [hc]
    rw [ih]
    simp

theorem contributeLoop_ok (world : World) (deps : List Dependency) (acc : List Contribution)
    (h : (contributeLoop world deps acc).2 = none) :
    ∃ cs, List.Forall₂ (Built world) deps cs ∧ (contributeLoop world deps acc).1 = acc ++ cs := by
  induction deps generalizing acc with
  | nil => exact ⟨[], List.Forall₂.nil, by simp [contributeLoop]⟩
  | cons d deps ih =>
    rw [contributeLoop_cons] at h ⊢
    cases hg : extractedName d.Image with
    | none => simp [hg] at h
    | some n =>
      simp only [hg] at h ⊢
      cases hc : contributePackageDependency world n with
      | error e => simp [hc] at h
      | ok c =>
        simp only [hc] at h ⊢
        obtain ⟨cs, hcs, heq⟩ := ih (acc ++ [c]) h
        exact ⟨c :: cs, List.Forall₂.cons ⟨n, hg, hc⟩ hcs, by simp [heq]⟩

theorem contributeLoop_err (world : World) (deps : List Dependency) (acc : List Contribution)
    (h : (contributeLoop world deps acc).2 ≠ none) : (contributeLoop world deps acc).1 = [] := by
  induction deps generalizing acc with
  | nil => simp [contributeLoop] at h
  | cons d deps ih =>
    rw [contributeLoop_cons] at h ⊢
    cases hg : extractedName d.Image with
    | none => rfl
    | some n =>
      simp only [hg] at h ⊢
      cases hc : contributePackageDependency world n with
      | error e => rfl
      | ok c =>
        simp only [hc] at h ⊢
        exact ih _ h

theorem contributeLoop_no_match (world : World) (deps : List Dependency)
    (acc : List Contribution) (h : ∃ d ∈ deps, extractedName d.Image = none) :
    (contributeLoop world deps acc).2 ≠ none := by
  induction deps generalizing acc with
  | nil => simp at h
  | cons d deps ih =>
    rw [contributeLoop_cons]
    cases hg : extractedName d.Image with
    | none => simp
    | some n =>
      simp only
      cases hc : contributePackageDependency world n with
      | error e => simp
      | ok c =>
        simp only
        apply ih
        obtain ⟨d', hd', hn⟩ := h
        rcases List.mem_cons.mp hd' with e | m
        · subst e
          rw [hg] at hn
          cases hn
        · exact ⟨d', m, hn⟩

theorem ContributePackageDependencies_decoded {σ ρ : Type} (world : World)
    (descriptor : Descriptor σ ρ) (s : σ) (p : Package) (hpkg : descriptor.Package = some s)
    (hdec : world.DecodeFile (world.Join descriptor.Path "package.toml") = .ok p) :
    ContributePackageDependencies world descriptor =
      { contributions := (contributeLoop world p.Dependencies []).1
        err := (contributeLoop world p.Dependencies []).2
        decoded := [world.Join descriptor.Path "package.toml"] } := by
  simp [ContributePackageDependencies, hpkg, hdec]

/-! ## Claims about `ContributePackageDependencies` -/

/-- C1: when the dependencies decoded from `package.toml` contain, at any position, an image
coordinate lacking a colon-delimited tag (no `:` at all, or nothing after its last `:`), the
call returns an error and no contribution, whatever the other dependencies are. -/
theorem ContributePackageDependencies_lacking_tag {σ ρ : Type} (world : World)
    (descriptor : Descriptor σ ρ) (s : σ) (p : Package) (hpkg : descriptor.Package = some s)
    (hdec : world.DecodeFile (world.Join descriptor.Path "package.toml") = .ok p)
    (hbad : ∃ d ∈ p.Dependencies, lacksTag d.Image) :
    (ContributePackageDependencies world descriptor).contributions = [] ∧
      (ContributePackageDependencies world descriptor).err ≠ none := by
  rw [ContributePackageDependencies_decoded world descriptor s p hpkg hdec]
  obtain ⟨d, hd, hl⟩ := hbad
  have herr := contributeLoop_no_match world p.Dependencies []
    ⟨d, hd, extractedName_lacksTag hl⟩
  exact ⟨contributeLoop_err world _ _ herr, herr⟩

/-- Witness of C1: a valid coordinate followed by one without a tag. -/
theorem ContributePackageDependencies_lacking_tag_witness :
    (ContributePackageDependencies
        (exampleWorld ["a.example/bar:1.0", "registry.example.com/foo"])
        exampleDescriptor).contributions = [] ∧
      (ContributePackageDependencies
        (exampleWorld ["a.example/bar:1.0", "registry.example.com/foo"])
        exampleDescriptor).err ≠ none :=
  ContributePackageDependencies_lacking_tag
    (exampleWorld ["a.example/bar:1.0", "registry.example.com/foo"]) exampleDescriptor ()
    { Dependencies := [⟨"a.example/bar:1.0"⟩, ⟨"registry.example.com/foo"⟩] } rfl rfl
    ⟨⟨"registry.example.com/foo"⟩, by simp, by decide⟩

/-- C2: for a descriptor whose package section is absent the result is the empty contribution
set and no error, and no file is handed to the decoder, for every path, every value of the
other fields and every file system. -/
theorem ContributePackageDependencies_no_package {σ ρ : Type} (world : World) (path : String)
    (other : ρ) :
    ContributePackageDependencies world
        ({ Path := path, Package := none, Other := other } : Descriptor σ ρ) =
      { contributions := [], err := none, decoded := [] } := by
  rfl

/-- C5: when every decoded dependency has the form name:tag and building each contribution
succeeds, the call returns no error and as many contributions as there are dependencies, the
i-th one being the contribution built from the name of the i-th dependency. -/
theorem ContributePackageDependencies_one_each {σ ρ : Type} (world : World)
    (descriptor : Descriptor σ ρ) (s : σ) (p : Package) (hpkg : descriptor.Package = some s)
    (hdec : world.DecodeFile (world.Join descriptor.Path "package.toml") = .ok p)
    (hall : ∀ d ∈ p.Dependencies, ∃ n t c, NameTag n t ∧ d.Image = n ++ ":" ++ t ∧
      contributePackageDependency world n = .ok c) :
    (ContributePackageDependencies world descriptor).err = none ∧
      (ContributePackageDependencies world descriptor).contributions.length =
        p.Dependencies.length ∧
      List.Forall₂
        (fun d c => ∃ n t, NameTag n t ∧ d.Image = n ++ ":" ++ t ∧
          contributePackageDependency world n = .ok c)
        p.Dependencies (ContributePackageDependencies world descriptor).contributions := by
  rw [ContributePackageDependencies_decoded world descriptor s p hpkg hdec]
  have key : ∀ deps : List Dependency,
      (∀ d ∈ deps, ∃ n t c, NameTag n t ∧ d.Image = n ++ ":" ++ t ∧
        contributePackageDependency world n = .ok c) →
      ∃ cs, List.Forall₂ (Built world) deps cs ∧
        List.Forall₂ (fun d c => ∃ n t, NameTag n t ∧ d.Image = n ++ ":" ++ t ∧
          contributePackageDependency world n = .ok c) deps cs := by
    intro deps
    induction deps with
    | nil => intro _; exact ⟨[], List.Forall₂.nil, List.Forall₂.nil⟩
    | cons d deps ih =>
      intro h
      obtain ⟨n, t, c, hnt, himg, hc⟩ := h d (List.mem_cons_self _ _)
      obtain ⟨cs, h1, h2⟩ := ih (fun e he => h e (List.mem_cons_of_mem _ he))
      refine ⟨c :: cs, List.Forall₂.cons ⟨n, ?_, hc⟩ h1,
        List.Forall₂.cons ⟨n, t, hnt, himg, hc⟩ h2⟩
      rw [himg]
      exact extractedName_nameTag hnt
  obtain ⟨cs, h1, h2⟩ := key p.Dependencies hall
  rw [contributeLoop_of_built world h1 []]
  exact ⟨rfl, h2.length_eq.symm, h2⟩

/-- Witness of C5: two dependencies, two contributions. -/
theorem ContributePackageDependencies_one_each_witness :
    (ContributePackageDependencies
        (exampleWorld ["registry.example.com/foo:1.2.3", "host:5000/bar:1.2"])
        exampleDescriptor).contributions.length = 2 :=
  (ContributePackageDependencies_one_each
    (exampleWorld ["registry.example.com/foo:1.2.3", "host:5000/bar:1.2"]) exampleDescriptor ()
    { Dependencies := [⟨"registry.example.com/foo:1.2.3"⟩, ⟨"host:5000/bar:1.2"⟩] } rfl rfl
    (by
      intro d hd
      simp only [List.mem_cons, List.mem_singleton, List.not_mem_nil, or_false] at hd
      rcases hd with e | e
      · exact ⟨"registry.example.com/foo", "1.2.3", _, by decide, by rw [e]; rfl, rfl⟩
      · exact ⟨"host:5000/bar", "1.2", _, by decide, by rw [e]; rfl, rfl⟩)).2.1

/-! ## Claims about the workflow of one dependency -/

/-- C3: for an image `n ++ ":" ++ t` with a non-empty tag `t` free of `:` and a non-empty name
`n` free of newlines, the pattern captures `n`, the loop hands the workflow built for `n` to
`NewActionContribution`, and the only step with id `package` of that workflow has the
environment consisting exactly of `DEPENDENCY = n`: the whole coordinate up to its last `:`. -/
theorem update_step_environment (world : World) (n t : String) (h : NameTag n t)
    (rest : List Dependency) (acc : List Contribution) :
    FindStringSubmatch (n ++ ":" ++ t) = some [n ++ ":" ++ t, n] ∧
      contributeLoop world ({ Image := n ++ ":" ++ t } :: rest) acc =
        (match world.NewActionContribution (workflow world n) with
          | .error err => ([], some err)
          | .ok c => contributeLoop world rest (acc ++ [c])) ∧
      (stepsWithId (workflow world n) "package").map (fun s => s.Env) =
        [[("DEPENDENCY", n)]] := by
  refine ⟨FindStringSubmatch_nameTag h, ?_, ?_⟩
  · rw [contributeLoop_cons, extractedName_nameTag h]
    rfl
  · rfl

/-- Witness of C3: a registry with a port, whose name itself contains a colon. -/
theorem update_step_environment_witness :
    (stepsWithId (workflow (exampleWorld []) "host:5000/foo") "package").map (fun s => s.Env) =
      [[("DEPENDENCY", "host:5000/foo")]] :=
  (update_step_environment (exampleWorld []) "host:5000/foo" "1.2" (by decide) [] []).2.2

theorem Base_eq_lastSegment {name : String} (hne : name ≠ "")
    (hlast : name.toList.getLast? ≠ some '/') : Base name = lastSegment name := by
  have hl : name.toList ≠ [] := fun e => hne (String.ext e)
  obtain ⟨c, cs, hrev⟩ : ∃ c cs, name.toList.reverse = c :: cs := by
    cases hr : name.toList.reverse with
    | nil => exact absurd (List.reverse_eq_nil_iff.mp hr) hl
    | cons c cs => exact ⟨c, cs, rfl⟩
  have hc : c ≠ '/' := by
    intro e
    apply hlast
    rw [List.getLast?_eq_head?_reverse, hrev, e]
    rfl
  have hsep : IsPathSeparator c = false := by simp [IsPathSeparator, hc]
  have hdrop : name.toList.reverse.dropWhile IsPathSeparator = name.toList.reverse := by
    rw [hrev, List.dropWhile_cons, hsep]
    rfl
  have hfun : (fun c => !IsPathSeparator c) = (fun c => c != '/') := rfl
  unfold Base lastSegment
  rw [if_neg hne]
  simp only [hdrop, List.reverse_reverse, hfun]
  rw [if_neg]
  rw [hrev, List.takeWhile_cons]
  simp [hc]

/-- C4, as amended: for every dependency name `n` the workflow built for it (not its job) has
the name `"Update "` followed by `filepath.Base n`, and the only job of the workflow has the
key `update` and the fixed name `Update Package Dependency`; for a non-empty `n` that does not
end in `/`, `filepath.Base n` is the last path segment of `n`, so the workflow is named
`"Update "` followed by that segment. -/
theorem workflow_name (world : World) (n : String) :
    (workflow world n).Name = "Update " ++ Base n ∧
      (workflow world n).Jobs.map (fun j => (j.1, j.2.Name)) =
        [("update", "Update Package Dependency")] ∧
      (n ≠ "" → n.toList.getLast? ≠ some '/' →
        Base n = lastSegment n ∧ (workflow world n).Name = "Update " ++ lastSegment n) := by
  refine ⟨rfl, rfl, ?_⟩
  intro hne hlast
  refine ⟨Base_eq_lastSegment hne hlast, ?_⟩
  rw [← Base_eq_lastSegment hne hlast]
  rfl

/-- Witness of C4 as amended: the workflow for `registry.example.com/foo` is `Update foo`, and
so is the one for `registry.example.com/foo/`, a name ending in `/`. -/
theorem workflow_name_witness :
    (workflow (exampleWorld []) "registry.example.com/foo").Name = "Update foo" ∧
      (workflow (exampleWorld []) "registry.example.com/foo/").Name = "Update foo" :=
  ⟨((workflow_name (exampleWorld []) "registry.example.com/foo").2.2
      (by decide) (by decide)).2,
    (workflow_name (exampleWorld []) "registry.example.com/foo/").1⟩

/-- Counterexample to C4 as stated: for `registry.example.com/foo:1.2.3` the pattern captures
`registry.example.com/foo`, and no job of the workflow built for it is named `Update foo`. -/
theorem job_name_counterexample :
    extractedName "registry.example.com/foo:1.2.3" = some "registry.example.com/foo" ∧
      ¬ ∃ j ∈ (workflow (exampleWorld []) "registry.example.com/foo").Jobs,
        j.2.Name = "Update foo" := by
  decide

/-- C7: the workflow built for a dependency name has one job, `update`, whose nine steps are, in
order, the checkout action, the Go setup pinned to `GoVersion`, the installs of crane, yj (with
`YJ_VERSION` in its environment) and update-package-dependency, the gcloud setup consuming the
service-account secret, the docker credential configuration, the update step with id `package`
and the create-pull-request action; for two names the step lists agree in length and in every
step but for the update step's `DEPENDENCY` value and the pull-request step's commit-message,
branch, title and body. -/
theorem update_steps_fixed (world : World) (n m : String) :
    (workflow world n).Jobs.map (fun j => j.1) = ["update"] ∧
      (updateSteps world n).length = 9 ∧
      (updateSteps world n).map (fun s => (s.Id, s.Name, s.Uses)) =
        [("", "", "actions/checkout@v2"),
         ("", "", "actions/setup-go@v2"),
         ("", "Install crane", ""),
         ("", "Install yj", ""),
         ("", "Install update-package-dependency", ""),
         ("", "", "GoogleCloudPlatform/github-actions/setup-gcloud@master"),
         ("", "Configure gcloud docker credentials", ""),
         ("package", "Update Package Dependency", ""),
         ("", "", "peter-evans/create-pull-request@v3")] ∧
      (updateSteps world n)[1]?.map (fun s => s.With) =
        some [("go-version", Value.str world.GoVersion)] ∧
      (updateSteps world n)[3]?.map (fun s => s.Env) =
        some [("YJ_VERSION", world.YJVersion)] ∧
      (updateSteps world n)[5]?.map (fun s => s.With) =
        some [("service_account_key",
          Value.str "$\x7b\x7b secrets.JAVA_GCLOUD_SERVICE_ACCOUNT_KEY \x7d\x7d")] ∧
      (updateSteps world n)[7]?.map (fun s => s.Env) = some [("DEPENDENCY", n)] ∧
      (updateSteps world n)[8]?.map (fun s => s.With.map (fun kv => kv.1)) =
        some ["token", "commit-message", "signoff", "branch", "delete-branch", "title", "body",
          "labels"] ∧
      (updateSteps world n).length = (updateSteps world m).length ∧
      (updateSteps world n).take 7 = (updateSteps world m).take 7 ∧
      (updateSteps world n)[7]?.map (fun s => { s with Env := [] }) =
        (updateSteps world m)[7]?.map (fun s => { s with Env := [] }) ∧
      (updateSteps world n)[8]?.map
          (fun s => s.withoutKeys ["commit-message", "branch", "title", "body"]) =
        (updateSteps world m)[8]?.map
          (fun s => s.withoutKeys ["commit-message", "branch", "title", "body"]) := by
  refine ⟨rfl, rfl, rfl, rfl, rfl, rfl, rfl, rfl, rfl, rfl, rfl, ?_⟩
  simp [updateSteps, workflow, Step.withoutKeys]

/-! ## Names of the contributions -/

theorem built_of_mem (world : World) {deps : List Dependency} {cs : List Contribution}
    (h : List.Forall₂ (Built world) deps cs) {d : Dependency} (hd : d ∈ deps) :
    ∃ c ∈ cs, Built world d c := by
  induction h with
  | nil => cases hd
  | @cons d' c' deps cs hb _ ih =>
    rcases List.mem_cons.mp hd with e | m
    · subst e
      exact ⟨c', List.mem_cons_self _ _, hb⟩
    · obtain ⟨c, hc, hbc⟩ := ih m
      exact ⟨c, List.mem_cons_of_mem _ hc, hbc⟩

theorem extractedName_nodup_of_built (world : World) {deps : List Dependency}
    {cs : List Contribution} (h : List.Forall₂ (Built world) deps cs) (hnd : cs.Nodup) :
    (deps.map (fun d => extractedName d.Image)).Nodup := by
  induction h with
  | nil => exact List.nodup_nil
  | @cons d c deps cs hb hrest ih =>
    rw [List.nodup_cons] at hnd
    rw [List.map_cons, List.nodup_cons]
    refine ⟨?_, ih hnd.2⟩
    intro hmem
    obtain ⟨d', hd', heq⟩ := List.mem_map.mp hmem
    obtain ⟨c', hc', n', hn', hb'⟩ := built_of_mem world hrest hd'
    obtain ⟨n, hn, hbc⟩ := hb
    rw [hn, hn'] at heq
    cases heq
    rw [hbc] at hb'
    cases hb'
    exact hnd.1 hc'

theorem built_and_names {σ ρ : Type} (world : World)
    (descriptor : Descriptor σ ρ) (s : σ) (p : Package) (hpkg : descriptor.Package = some s)
    (hdec : world.DecodeFile (world.Join descriptor.Path "package.toml") = .ok p)
    (hok : (ContributePackageDependencies world descriptor).err = none) :
    List.Forall₂ (Built world) p.Dependencies
        (ContributePackageDependencies world descriptor).contributions ∧
      (((ContributePackageDependencies world descriptor).contributions.map
          (fun c => c.Name)).Nodup →
        (p.Dependencies.map (fun d => extractedName d.Image)).Nodup) := by
  rw [ContributePackageDependencies_decoded world descriptor s p hpkg hdec] at hok ⊢
  obtain ⟨cs, hcs, heq⟩ := contributeLoop_ok world p.Dependencies [] hok
  simp only [List.nil_append] at heq
  simp only [heq]
  exact ⟨hcs, fun hnd => extractedName_nodup_of_built world hcs (List.Nodup.of_map _ hnd)⟩

theorem built_getElem (world : World) {deps : List Dependency} {cs : List Contribution}
    (h : List.Forall₂ (Built world) deps cs) :
    ∀ (k : Nat) (x : Dependency) (y : Contribution),
      deps[k]? = some x → cs[k]? = some y → Built world x y := by
  induction h with
  | nil => intro k x y hx; simp at hx
  | @cons d0 c0 deps cs hb _ ih =>
    intro k x y hx hy
    cases k with
    | zero =>
      simp only [List.getElem?_cons_zero, Option.some.injEq] at hx hy
      rw [← hx, ← hy]
      exact hb
    | succ k =>
      simp only [List.getElem?_cons_succ] at hx hy
      exact ih k x y hx hy

theorem built_same_name (world : World) {deps : List Dependency} {cs : List Contribution}
    (h : List.Forall₂ (Built world) deps cs) (i j : Nat) (d e : Dependency)
    (c c' : Contribution) (hd : deps[i]? = some d) (he : deps[j]? = some e)
    (hc : cs[i]? = some c) (hc' : cs[j]? = some c')
    (hname : extractedName d.Image = extractedName e.Image) : c = c' := by
  obtain ⟨n, hn, hb⟩ := built_getElem world h i d c hd hc
  obtain ⟨m, hm, hb'⟩ := built_getElem world h j e c' he hc'
  rw [hname, hm] at hn
  cases hn
  rw [hb] at hb'
  cases hb'
  rfl

/-- C6, as amended: on every call of `ContributePackageDependencies` that succeeds, the i-th
contribution returned is the one `NewActionContribution` gives for the workflow of the name
extracted from the i-th dependency; two dependencies with the same extracted name therefore get
the same contribution, with the same name; and the names of the returned contributions are
pairwise distinct only if the extracted names of the dependencies are pairwise distinct. -/
theorem contribution_names_distinct_only_if {σ ρ : Type} (world : World)
    (descriptor : Descriptor σ ρ) (s : σ) (p : Package) (hpkg : descriptor.Package = some s)
    (hdec : world.DecodeFile (world.Join descriptor.Path "package.toml") = .ok p)
    (hok : (ContributePackageDependencies world descriptor).err = none) :
    List.Forall₂
        (fun d c => ∃ n, extractedName d.Image = some n ∧
          world.NewActionContribution (workflow world n) = .ok c)
        p.Dependencies (ContributePackageDependencies world descriptor).contributions ∧
      (∀ (i j : Nat) (d e : Dependency) (c c' : Contribution),
        p.Dependencies[i]? = some d → p.Dependencies[j]? = some e →
        (ContributePackageDependencies world descriptor).contributions[i]? = some c →
        (ContributePackageDependencies world descriptor).contributions[j]? = some c' →
        extractedName d.Image = extractedName e.Image → c = c' ∧ c.Name = c'.Name) ∧
      (((ContributePackageDependencies world descriptor).contributions.map
          (fun c => c.Name)).Nodup →
        (p.Dependencies.map (fun d => extractedName d.Image)).Nodup) := by
  obtain ⟨hbuilt, hnodup⟩ := built_and_names world descriptor s p hpkg hdec hok
  refine ⟨hbuilt, ?_, hnodup⟩
  intro i j d e c c' hd he hc hc' hname
  have heq := built_same_name world hbuilt i j d e c c' hd he hc hc' hname
  exact ⟨heq, by rw [heq]⟩

/-- Witness of C6 as amended: two dependencies with different names. -/
theorem contribution_names_distinct_only_if_witness :
    (([⟨"a.example/foo:1"⟩, ⟨"b.example/bar:2"⟩] : List Dependency).map
      (fun d => extractedName d.Image)).Nodup :=
  (contribution_names_distinct_only_if (exampleWorld ["a.example/foo:1", "b.example/bar:2"])
    exampleDescriptor () { Dependencies := [⟨"a.example/foo:1"⟩, ⟨"b.example/bar:2"⟩] }
    rfl rfl (by decide)).2.2 (by decide)

/-- Counterexample to C6 as stated: with the coordinate `a.example/foo:1` listed twice the call
succeeds in the example world and returns two contributions of the same name; and in no world
in which the call succeeds on that list are the returned names pairwise distinct. -/
theorem contribution_names_collide :
    ((ContributePackageDependencies (exampleWorld ["a.example/foo:1", "a.example/foo:1"])
          exampleDescriptor).err = none ∧
        (ContributePackageDependencies (exampleWorld ["a.example/foo:1", "a.example/foo:1"])
          exampleDescriptor).contributions.map (fun c => c.Name) =
          ["Update foo", "Update foo"]) ∧
      ¬ ∃ world : World,
        world.DecodeFile (world.Join exampleDescriptor.Path "package.toml") =
            .ok { Dependencies := [⟨"a.example/foo:1"⟩, ⟨"a.example/foo:1"⟩] } ∧
          (ContributePackageDependencies world exampleDescriptor).err = none ∧
          ((ContributePackageDependencies world exampleDescriptor).contributions.map
            (fun c => c.Name)).Nodup := by
  refine ⟨by decide, ?_⟩
  rintro ⟨world, hdec, hok, hnd⟩
  have h := (built_and_names world exampleDescriptor () _ rfl hdec hok).2 hnd
  revert h
  decide

end Octo
namespace AzulZulu

/-! ## Maps -/

theorem get?_assign_self (m : StringMap) (k v : String) :
    (m.assign k v).get? k = some v := by
  induction m with
  | nil => simp [StringMap.assign, StringMap.get?]
  | cons kv m ih =>
    obtain ⟨key, value⟩ := kv
    by_cases h : key = k
    · simp [StringMap.assign, StringMap.get?, h]
    · simp [StringMap.assign, StringMap.get?, h, ih]

theorem get?_assign_of_ne (m : StringMap) (k v k' : String) (hne : k' ≠ k) :
    (m.assign k v).get? k' = m.get? k' := by
  have hne' : ¬ k = k' := fun e => hne e.symm
  induction m with
  | nil => simp [StringMap.assign, StringMap.get?, hne']
  | cons kv m ih =>
    obtain ⟨key, value⟩ := kv
    by_cases h : key = k
    · simp [StringMap.assign, StringMap.get?, h, hne']
    · by_cases h2 : key = k'
      · subst h2
        simp [StringMap.assign, StringMap.get?, h]
      · simp [StringMap.assign, StringMap.get?, h, h2, ih]

/-! ## The paths of `main` -/

theorem main_type_missing (world : World) (ht : world.NewInputs.get? "type" = none) :
    main world = { events := [], panic := some "type must be specified", closed := false } := by
  simp [main, ht]

theorem main_version_missing (world : World) (t : String)
    (ht : world.NewInputs.get? "type" = some t) (hv : world.NewInputs.get? "version" = none) :
    main world =
      { events := [], panic := some "version must be specified", closed := false } := by
  simp [main, ht, hv]

theorem main_transport (world : World) (t v err : String)
    (ht : world.NewInputs.get? "type" = some t) (hv : world.NewInputs.get? "version" = some v)
    (hget : world.Get (uri t v) = .error err) :
    main world =
      { events := [.Get (uri t v)]
        panic := some ("unable to get " ++ uri t v ++ "\n" ++ err)
        closed := false } := by
  simp [main, ht, hv, hget]

theorem main_status (world : World) (t v : String) (resp : Response)
    (ht : world.NewInputs.get? "type" = some t) (hv : world.NewInputs.get? "version" = some v)
    (hget : world.Get (uri t v) = .ok resp) (hs : resp.StatusCode ≠ 200) :
    main world =
      { events := [.Get (uri t v)]
        panic := some ("unable to download " ++ uri t v ++ ": " ++ Sprintd resp.StatusCode)
        closed := true } := by
  simp [main, ht, hv, hget, hs]

theorem main_undecodable (world : World) (t v : String) (resp : Response) (err : String)
    (ht : world.NewInputs.get? "type" = some t) (hv : world.NewInputs.get? "version" = some v)
    (hget : world.Get (uri t v) = .ok resp) (hs : resp.StatusCode = 200)
    (hd : world.Decode resp.Body = .error err) :
    main world =
      { events := [.Get (uri t v), .Decode resp.Body]
        panic := some ("unable to decode payload\n" ++ err)
        closed := true } := by
  simp [main, ht, hv, hget, hs, hd]

theorem main_short (world : World) (t v : String) (resp : Response) (raw : Bundle)
    (ht : world.NewInputs.get? "type" = some t) (hv : world.NewInputs.get? "version" = some v)
    (hget : world.Get (uri t v) = .ok resp) (hs : resp.StatusCode = 200)
    (hd : world.Decode resp.Body = .ok raw) (hlen : raw.JDKVersion.length < 3) :
    main world =
      { events := [.Get (uri t v), .Decode resp.Body]
        panic := some ("runtime error: index out of range [" ++
          Nat.repr raw.JDKVersion.length ++ "] with length " ++ Nat.repr raw.JDKVersion.length)
        closed := true } := by
  cases hl : raw.JDKVersion with
  | nil => simp [main, ht, hv, hget, hs, hd, hl]
  | cons a l1 =>
    cases l1 with
    | nil => simp [main, ht, hv, hget, hs, hd, hl]
    | cons b l2 =>
      cases l2 with
      | nil => simp [main, ht, hv, hget, hs, hd, hl]
      | cons c l3 =>
        rw [hl] at hlen
        simp at hlen
        omega

theorem main_selector (world : World) (t v : String) (resp : Response) (raw : Bundle)
    (a b c : Int) (rest : List Int) (err : String)
    (ht : world.NewInputs.get? "type" = some t) (hv : world.NewInputs.get? "version" = some v)
    (hget : world.Get (uri t v) = .ok resp) (hs : resp.StatusCode = 200)
    (hd : world.Decode resp.Body = .ok raw) (hj : raw.JDKVersion = a :: b :: c :: rest)
    (hsel : world.GetLatestVersion
      [(Sprintd a ++ "." ++ Sprintd b ++ "." ++ Sprintd c, raw.URL)] world.NewInputs =
        .error err) :
    main world =
      { events := [.Get (uri t v), .Decode resp.Body,
          .GetLatestVersion [(Sprintd a ++ "." ++ Sprintd b ++ "." ++ Sprintd c, raw.URL)]
            world.NewInputs]
        panic := some ("unable to get latest version\n" ++ err)
        closed := true } := by
  simp [main, ht, hv, hget, hs, hd, hj, hsel]

theorem main_outputs (world : World) (t v : String) (resp : Response) (raw : Bundle)
    (a b c : Int) (rest : List Int) (latestVersion : Version) (err : String)
    (ht : world.NewInputs.get? "type" = some t) (hv : world.NewInputs.get? "version" = some v)
    (hget : world.Get (uri t v) = .ok resp) (hs : resp.StatusCode = 200)
    (hd : world.Decode resp.Body = .ok raw) (hj : raw.JDKVersion = a :: b :: c :: rest)
    (hsel : world.GetLatestVersion
      [(Sprintd a ++ "." ++ Sprintd b ++ "." ++ Sprintd c, raw.URL)] world.NewInputs =
        .ok latestVersion)
    (hout : world.NewOutputs
      (StringMap.index [(Sprintd a ++ "." ++ Sprintd b ++ "." ++ Sprintd c, raw.URL)]
        latestVersion.Original) latestVersion = .error err) :
    main world =
      { events := [.Get (uri t v), .Decode resp.Body,
          .GetLatestVersion [(Sprintd a ++ "." ++ Sprintd b ++ "." ++ Sprintd c, raw.URL)]
            world.NewInputs,
          .NewOutputs
            (StringMap.index [(Sprintd a ++ "." ++ Sprintd b ++ "." ++ Sprintd c, raw.URL)]
              latestVersion.Original) latestVersion]
        panic := some ("unable to create outputs\n" ++ err)
        closed := true } := by
  simp [main, ht, hv, hget, hs, hd, hj, hsel, hout]

theorem main_written (world : World) (t v : String) (resp : Response) (raw : Bundle)
    (a b c : Int) (rest : List Int) (latestVersion : Version) (outputs : StringMap)
    (ht : world.NewInputs.get? "type" = some t) (hv : world.NewInputs.get? "version" = some v)
    (hget : world.Get (uri t v) = .ok resp) (hs : resp.StatusCode = 200)
    (hd : world.Decode resp.Body = .ok raw) (hj : raw.JDKVersion = a :: b :: c :: rest)
    (hsel : world.GetLatestVersion
      [(Sprintd a ++ "." ++ Sprintd b ++ "." ++ Sprintd c, raw.URL)] world.NewInputs =
        .ok latestVersion)
    (hout : world.NewOutputs
      (StringMap.index [(Sprintd a ++ "." ++ Sprintd b ++ "." ++ Sprintd c, raw.URL)]
        latestVersion.Original) latestVersion = .ok outputs) :
    main world =
      { events := [.Get (uri t v), .Decode resp.Body,
          .GetLatestVersion [(Sprintd a ++ "." ++ Sprintd b ++ "." ++ Sprintd c, raw.URL)]
            world.NewInputs,
          .NewOutputs
            (StringMap.index [(Sprintd a ++ "." ++ Sprintd b ++ "." ++ Sprintd c, raw.URL)]
              latestVersion.Original) latestVersion,
          .Write (if latestVersion.Major = 8 then
            outputs.assign "cpe" ("update" ++ Nat.repr latestVersion.Patch) else outputs)]
        panic := none
        closed := true } := by
  simp [main, ht, hv, hget, hs, hd, hj, hsel, hout]

theorem main_stdout_of_succeeds (world : World) (latestVersion : Version)
    (outputs : StringMap) (h : Succeeds world latestVersion outputs) :
    (main world).panic = none ∧
      (main world).stdout =
        [if latestVersion.Major = 8 then
          outputs.assign "cpe" ("update" ++ Nat.repr latestVersion.Patch) else outputs] ∧
      ∃ earlier, (main world).events = earlier ++
          [.Write (if latestVersion.Major = 8 then
            outputs.assign "cpe" ("update" ++ Nat.repr latestVersion.Patch) else outputs)] ∧
        ∀ e ∈ earlier, ∀ o, e ≠ .Write o := by
  obtain ⟨t, v, resp, raw, a, b, c, rest, ht, hv, hget, hs, hd, hj, hsel, hout⟩ := h
  rw [main_written world t v resp raw a b c rest latestVersion outputs ht hv hget hs hd hj
    hsel hout]
  refine ⟨rfl, rfl, [_, _, _, _], rfl, ?_⟩
  intro e he o
  simp only [List.mem_cons, List.mem_singleton, List.not_mem_nil, or_false] at he
  rcases he with e1 | e1 | e1 | e1 <;> rw [e1] <;> exact fun hc => Event.noConfusion hc

theorem main_of_fails (world : World) (h : Fails world) :
    (main world).panic ≠ none ∧ ∀ o, Event.Write o ∉ (main world).events := by
  cases h with
  | typeMissing ht => rw [main_type_missing world ht]; simp
  | versionMissing hv =>
    cases ht : world.NewInputs.get? "type" with
    | none => rw [main_type_missing world ht]; simp
    | some t => rw [main_version_missing world t ht hv]; simp
  | transport t v err ht hv hget => rw [main_transport world t v err ht hv hget]; simp
  | status t v resp ht hv hget hs => rw [main_status world t v resp ht hv hget hs]; simp
  | undecodable t v resp err ht hv hget hs hd =>
    rw [main_undecodable world t v resp err ht hv hget hs hd]; simp
  | short t v resp raw ht hv hget hs hd hlen =>
    rw [main_short world t v resp raw ht hv hget hs hd hlen]; simp
  | selector t v resp raw a b c rest err ht hv hget hs hd hj hsel =>
    rw [main_selector world t v resp raw a b c rest err ht hv hget hs hd hj hsel]; simp
  | outputs t v resp raw a b c rest latestVersion err ht hv hget hs hd hj hsel hout =>
    rw [main_outputs world t v resp raw a b c rest latestVersion err ht hv hget hs hd hj hsel
      hout]
    simp

theorem stdout_eq_nil_of_no_write (r : Run) (h : ∀ o, Event.Write o ∉ r.events) :
    r.stdout = [] := by
  unfold Run.stdout
  rw [List.filterMap_eq_nil_iff]
  intro e he
  cases e with
  | Write o => exact absurd he (h o)
  | _ => rfl

theorem fails_or_succeeds (world : World) :
    Fails world ∨ ∃ latestVersion outputs, Succeeds world latestVersion outputs := by
  cases ht : world.NewInputs.get? "type" with
  | none => exact .inl (.typeMissing ht)
  | some t =>
  cases hv : world.NewInputs.get? "version" with
  | none => exact .inl (.versionMissing hv)
  | some v =>
  cases hget : world.Get (uri t v) with
  | error err => exact .inl (.transport t v err ht hv hget)
  | ok resp =>
  by_cases hs : resp.StatusCode = 200
  swap
  · exact .inl (.status t v resp ht hv hget hs)
  cases hd : world.Decode resp.Body with
  | error err => exact .inl (.undecodable t v resp err ht hv hget hs hd)
  | ok raw =>
  by_cases hlen : raw.JDKVersion.length < 3
  · exact .inl (.short t v resp raw ht hv hget hs hd hlen)
  obtain ⟨a, b, c, rest, hj⟩ : ∃ a b c rest, raw.JDKVersion = a :: b :: c :: rest := by
    match hl : raw.JDKVersion with
    | [] => simp [hl] at hlen
    | [_] => simp [hl] at hlen
    | [_, _] => simp [hl] at hlen
    | a :: b :: c :: rest => exact ⟨a, b, c, rest, rfl⟩
  cases hsel : world.GetLatestVersion
      [(Sprintd a ++ "." ++ Sprintd b ++ "." ++ Sprintd c, raw.URL)] world.NewInputs with
  | error err => exact .inl (.selector t v resp raw a b c rest err ht hv hget hs hd hj hsel)
  | ok latestVersion =>
  cases hout : world.NewOutputs
      (StringMap.index [(Sprintd a ++ "." ++ Sprintd b ++ "." ++ Sprintd c, raw.URL)]
        latestVersion.Original) latestVersion with
  | error err =>
    exact .inl (.outputs t v resp raw a b c rest latestVersion err ht hv hget hs hd hj hsel hout)
  | ok outputs =>
    exact .inr ⟨latestVersion, outputs, t, v, resp, raw, a, b, c, rest, ht, hv, hget, hs, hd, hj,
      hsel, hout⟩

/-! ## Decimal numbers and dotted triples -/

theorem digitChar_spec : ∀ k, k < 10 →
    (Nat.digitChar k).isDigit = true ∧ (Nat.digitChar k).toNat - '0'.toNat = k ∧
      Nat.digitChar k ≠ '.' := by
  decide

theorem parseDigits_toDigitsCore (fuel : Nat) : ∀ (n : Nat) (ds : List Char), n < fuel →
    parseDigits (Nat.toDigitsCore 10 fuel n ds) 0 = parseDigits ds n := by
  induction fuel with
  | zero => intro n ds h; omega
  | succ fuel ih =>
    intro n ds h
    obtain ⟨hd1, hd2, _⟩ := digitChar_spec (n % 10) (Nat.mod_lt _ (by decide))
    have hstep : parseDigits (Nat.digitChar (n % 10) :: ds) (n / 10) = parseDigits ds n := by
      rw [parseDigits, if_pos hd1, hd2]
      congr 1
      omega
    rw [Nat.toDigitsCore]
    by_cases h0 : n / 10 = 0
    · simp only [h0, if_true]
      rw [← hstep, h0]
    · simp only [h0, if_false]
      rw [ih (n / 10) _ (by omega), hstep]

theorem toDigitsCore_ne_nil (fuel : Nat) : ∀ (n : Nat) (ds : List Char), ds ≠ [] →
    Nat.toDigitsCore 10 fuel n ds ≠ [] := by
  induction fuel with
  | zero => intro n ds h; simpa [Nat.toDigitsCore] using h
  | succ fuel ih =>
    intro n ds _
    rw [Nat.toDigitsCore]
    by_cases h0 : n / 10 = 0
    · simp [h0]
    · simp only [h0, if_false]
      exact ih _ _ (List.cons_ne_nil _ _)

theorem dot_not_mem_toDigitsCore (fuel : Nat) : ∀ (n : Nat) (ds : List Char), '.' ∉ ds →
    '.' ∉ Nat.toDigitsCore 10 fuel n ds := by
  induction fuel with
  | zero => intro n ds h; simpa [Nat.toDigitsCore] using h
  | succ fuel ih =>
    intro n ds h
    obtain ⟨_, _, hd3⟩ := digitChar_spec (n % 10) (Nat.mod_lt _ (by decide))
    have hcons : '.' ∉ Nat.digitChar (n % 10) :: ds := by
      intro hm
      rcases List.mem_cons.mp hm with e | m
      · exact hd3 e.symm
      · exact h m
    rw [Nat.toDigitsCore]
    by_cases h0 : n / 10 = 0
    · simpa [h0] using hcons
    · simp only [h0, if_false]
      exact ih _ _ hcons

theorem repr_toList (n : Nat) : (Nat.repr n).toList = Nat.toDigits 10 n := rfl

theorem parseNat_repr (n : Nat) : parseNat (Nat.repr n).toList = some n := by
  rw [repr_toList]
  unfold parseNat Nat.toDigits
  have hne : Nat.toDigitsCore 10 (n + 1) n [] ≠ [] := by
    rw [Nat.toDigitsCore]
    by_cases h0 : n / 10 = 0
    · simp [h0]
    · simp only [h0, if_false]
      exact toDigitsCore_ne_nil _ _ _ (List.cons_ne_nil _ _)
  rw [if_neg hne, parseDigits_toDigitsCore (n + 1) n [] (Nat.lt_succ_self n)]
  rfl

theorem dot_not_mem_repr (n : Nat) : '.' ∉ (Nat.repr n).toList := by
  rw [repr_toList]
  exact dot_not_mem_toDigitsCore _ _ _ (List.not_mem_nil _)

theorem splitOn_of_not_mem (sep : Char) (a : List Char) (h : sep ∉ a) :
    splitOn sep a = [a] := by
  induction a with
  | nil => rfl
  | cons c cs ih =>
    have hc : c ≠ sep := fun e => h (by simp [e])
    have hcs : sep ∉ cs := fun m => h (List.mem_cons_of_mem _ m)
    rw [splitOn, if_neg hc, ih hcs]

theorem splitOn_append (sep : Char) (a rest : List Char) (h : sep ∉ a) :
    splitOn sep (a ++ sep :: rest) = a :: splitOn sep rest := by
  induction a with
  | nil => simp [splitOn]
  | cons c cs ih =>
    have hc : c ≠ sep := fun e => h (by simp [e])
    have hcs : sep ∉ cs := fun m => h (List.mem_cons_of_mem _ m)
    rw [List.cons_append, splitOn, if_neg hc, ih hcs]

theorem parseVersion_triple (a b c : Nat) :
    parseVersion (Nat.repr a ++ "." ++ Nat.repr b ++ "." ++ Nat.repr c) =
      some { Major := a, Minor := b, Patch := c,
             Original := Nat.repr a ++ "." ++ Nat.repr b ++ "." ++ Nat.repr c } := by
  have hl : (Nat.repr a ++ "." ++ Nat.repr b ++ "." ++ Nat.repr c).toList =
      (Nat.repr a).toList ++ '.' :: ((Nat.repr b).toList ++ '.' :: (Nat.repr c).toList) := by
    simp
  unfold parseVersion
  rw [hl, splitOn_append _ _ _ (dot_not_mem_repr a), splitOn_append _ _ _ (dot_not_mem_repr b),
    splitOn_of_not_mem _ _ (dot_not_mem_repr c)]
  simp only [parseNat_repr]

theorem Sprintd_of_nonneg {z : Int} (h : 0 ≤ z) : Sprintd z = Nat.repr z.toNat := by
  cases z with
  | ofNat n => rfl
  | negSucc n => exact absurd h (by simp)

theorem GetLatestVersion_single (satisfies : StringMap → Version → Bool) (inputs : StringMap)
    (a b c : Int) (u : String) (ha : 0 ≤ a) (hb : 0 ≤ b) (hc : 0 ≤ c)
    (hsat : satisfies inputs
      { Major := a.toNat, Minor := b.toNat, Patch := c.toNat,
        Original := Sprintd a ++ "." ++ Sprintd b ++ "." ++ Sprintd c } = true) :
    GetLatestVersion satisfies [(Sprintd a ++ "." ++ Sprintd b ++ "." ++ Sprintd c, u)] inputs =
      .ok { Major := a.toNat, Minor := b.toNat, Patch := c.toNat,
            Original := Sprintd a ++ "." ++ Sprintd b ++ "." ++ Sprintd c } := by
  rw [Sprintd_of_nonneg ha, Sprintd_of_nonneg hb, Sprintd_of_nonneg hc] at hsat ⊢
  unfold GetLatestVersion
  simp [parseVersion_triple, hsat, latest]

/-! ## Claims about `main` -/

/-- C8: in a run whose steps before the write all succeed, with resolved version
`latestVersion` and constructed outputs `outputs`, exactly one output set is written; when the
major component is 8 its `cpe` is `update` followed by the decimal patch component and every
other output is the one the constructor produced; when the major component is not 8 the set
written is the constructor's, `cpe` included. -/
theorem cpe_output (world : World) (latestVersion : Version) (outputs : StringMap)
    (h : Succeeds world latestVersion outputs) :
    ∃ written, (main world).stdout = [written] ∧
      (latestVersion.Major = 8 →
        written.get? "cpe" = some ("update" ++ Nat.repr latestVersion.Patch) ∧
          ∀ k, k ≠ "cpe" → written.get? k = outputs.get? k) ∧
      (latestVersion.Major ≠ 8 → written = outputs) := by
  refine ⟨_, (main_stdout_of_succeeds world latestVersion outputs h).2.1, ?_, ?_⟩
  · intro h8
    rw [if_pos h8]
    exact ⟨get?_assign_self _ _ _, fun k hk => get?_assign_of_ne _ _ _ k hk⟩
  · intro h8
    rw [if_neg h8]

/-- Witness of C8: the catalog answers with version 8.0.302. -/
theorem cpe_output_witness :
    ∃ written,
      (main (exampleWorld 200
        { JDKVersion := [8, 0, 302], URL := "https://cdn.example/zulu8.tar.gz" })).stdout =
          [written] ∧
        written.get? "cpe" = some "update302" ∧
        written.get? "version" = some "8.0.302" := by
  obtain ⟨written, h1, h2, _⟩ := cpe_output
    (exampleWorld 200 { JDKVersion := [8, 0, 302], URL := "https://cdn.example/zulu8.tar.gz" })
    { Major := 8, Minor := 0, Patch := 302, Original := "8.0.302" }
    [("uri", "https://cdn.example/zulu8.tar.gz"), ("version", "8.0.302")]
    ⟨"jdk", "11", { StatusCode := 200, Body := "body" },
      { JDKVersion := [8, 0, 302], URL := "https://cdn.example/zulu8.tar.gz" }, 8, 0, 302, [],
      rfl, rfl, rfl, rfl, rfl, rfl, rfl, rfl⟩
  exact ⟨written, h1, (h2 rfl).1, by rw [(h2 rfl).2 "version" (by decide)]; rfl⟩

/-- C10: no partial output. A run that fails at any step (a missing `type` or `version` input,
a transport error, a status other than 200, an undecodable body, fewer than three version
components, an error of the selector or of the output constructor) panics having written
nothing; every run either fails so or has all its steps succeed; a run that panics has written
nothing; a write happens only as the last action of a run that does not panic and whose
earlier steps all succeeded, and is the only write; a missing input aborts before any request
and a status other than 200 before any decode. -/
theorem no_partial_output (world : World) :
    (Fails world → (main world).panic ≠ none ∧ (main world).stdout = []) ∧
      (Fails world ∨ ∃ latestVersion outputs, Succeeds world latestVersion outputs) ∧
      ((main world).panic ≠ none → (main world).stdout = []) ∧
      (∀ written, Event.Write written ∈ (main world).events →
        (main world).panic = none ∧
          (∃ latestVersion outputs, Succeeds world latestVersion outputs) ∧
          (main world).stdout = [written] ∧
          ∃ earlier, (main world).events = earlier ++ [.Write written] ∧
            ∀ e ∈ earlier, ∀ o, e ≠ .Write o) ∧
      (world.NewInputs.get? "type" = none ∨ world.NewInputs.get? "version" = none →
        (main world).panic ≠ none ∧ (main world).events = []) ∧
      (∀ t v resp, world.NewInputs.get? "type" = some t →
        world.NewInputs.get? "version" = some v → world.Get (uri t v) = .ok resp →
        resp.StatusCode ≠ 200 →
        (main world).panic ≠ none ∧ (main world).events = [.Get (uri t v)]) := by
  have hfail : Fails world → (main world).panic ≠ none ∧ (main world).stdout = [] :=
    fun h => ⟨(main_of_fails world h).1,
      stdout_eq_nil_of_no_write _ (main_of_fails world h).2⟩
  refine ⟨hfail, fails_or_succeeds world, ?_, ?_, ?_, ?_⟩
  · intro hp
    rcases fails_or_succeeds world with h | ⟨lv, outs, h⟩
    · exact (hfail h).2
    · exact absurd (main_stdout_of_succeeds world lv outs h).1 hp
  · intro written hw
    rcases fails_or_succeeds world with h | ⟨lv, outs, h⟩
    · exact absurd hw ((main_of_fails world h).2 written)
    · obtain ⟨hp, hout, earlier, hev, hearlier⟩ := main_stdout_of_succeeds world lv outs h
      have hwr : written =
          (if lv.Major = 8 then outs.assign "cpe" ("update" ++ Nat.repr lv.Patch)
            else outs) := by
        rw [hev, List.mem_append] at hw
        rcases hw with hw | hw
        · exact absurd rfl (hearlier _ hw written)
        · rw [List.mem_singleton] at hw
          exact Event.Write.inj hw
      rw [hwr]
      exact ⟨hp, ⟨lv, outs, h⟩, hout, earlier, hev, hearlier⟩
  · intro h
    rcases h with ht | hv
    · rw [main_type_missing world ht]
      simp
    · cases ht : world.NewInputs.get? "type" with
      | none => rw [main_type_missing world ht]; simp
      | some t => rw [main_version_missing world t ht hv]; simp
  · intro t v resp ht hv hget hs
    rw [main_status world t v resp ht hv hget hs]
    simp

/-- Witness of C10: a status 404 aborts the run after the request, with nothing written. -/
theorem no_partial_output_witness :
    (main (exampleWorld 404 { JDKVersion := [11, 0, 9], URL := "u" })).panic ≠ none ∧
      (main (exampleWorld 404 { JDKVersion := [11, 0, 9], URL := "u" })).stdout = [] :=
  (no_partial_output (exampleWorld 404 { JDKVersion := [11, 0, 9], URL := "u" })).1
    (Fails.status "jdk" "11" { StatusCode := 404, Body := "body" } rfl rfl rfl (by decide))

theorem events_take_three (world : World) (t v : String) (resp : Response) (raw : Bundle)
    (a b c : Int) (rest : List Int)
    (ht : world.NewInputs.get? "type" = some t) (hv : world.NewInputs.get? "version" = some v)
    (hget : world.Get (uri t v) = .ok resp) (hs : resp.StatusCode = 200)
    (hd : world.Decode resp.Body = .ok raw) (hj : raw.JDKVersion = a :: b :: c :: rest) :
    (main world).events.take 3 =
      [.Get (uri t v), .Decode resp.Body,
        .GetLatestVersion [(Sprintd a ++ "." ++ Sprintd b ++ "." ++ Sprintd c, raw.URL)]
          world.NewInputs] := by
  cases hsel : world.GetLatestVersion
      [(Sprintd a ++ "." ++ Sprintd b ++ "." ++ Sprintd c, raw.URL)] world.NewInputs with
  | error err =>
    rw [main_selector world t v resp raw a b c rest err ht hv hget hs hd hj hsel]
    rfl
  | ok latestVersion =>
    cases hout : world.NewOutputs
        (StringMap.index [(Sprintd a ++ "." ++ Sprintd b ++ "." ++ Sprintd c, raw.URL)]
          latestVersion.Original) latestVersion with
    | error err =>
      rw [main_outputs world t v resp raw a b c rest latestVersion err ht hv hget hs hd hj hsel
        hout]
      rfl
    | ok outputs =>
      rw [main_written world t v resp raw a b c rest latestVersion outputs ht hv hget hs hd hj
        hsel hout]
      rfl

/-- C9, as amended: with both inputs present and a status 200 response decoding to the integer
triple `[a, b, c]` and the url `u`, the catalog handed to the selector has exactly one entry,
keyed by the decimal dotted string of the triple with value `u`; when moreover the three
components are non-negative and the version satisfies the caller's constraint, the selector
returns that entry, and then: if output construction succeeds the run writes one output set,
as its last action, whose `version` is that dotted string and whose `uri` is `u`; if output
construction returns an error the run panics with that error and writes nothing. -/
theorem version_output (satisfies : StringMap → Version → Bool)
    (failure : String → Version → Option String) (inputs : StringMap)
    (get : String → Except String Response) (decode : String → Except String Bundle)
    (t v body u : String) (a b c : Int)
    (ht : inputs.get? "type" = some t) (hv : inputs.get? "version" = some v)
    (hget : get (uri t v) = .ok { StatusCode := 200, Body := body })
    (hdec : decode body = .ok { JDKVersion := [a, b, c], URL := u }) :
    (main (modelWorld satisfies failure inputs get decode)).events.take 3 =
        [.Get (uri t v), .Decode body,
          .GetLatestVersion [(Sprintd a ++ "." ++ Sprintd b ++ "." ++ Sprintd c, u)] inputs] ∧
      (0 ≤ a → 0 ≤ b → 0 ≤ c →
        satisfies inputs
          { Major := a.toNat, Minor := b.toNat, Patch := c.toNat,
            Original := Sprintd a ++ "." ++ Sprintd b ++ "." ++ Sprintd c } = true →
        (failure u
            { Major := a.toNat, Minor := b.toNat, Patch := c.toNat,
              Original := Sprintd a ++ "." ++ Sprintd b ++ "." ++ Sprintd c } = none →
          ∃ written,
            main (modelWorld satisfies failure inputs get decode) =
              { events := [.Get (uri t v), .Decode body,
                  .GetLatestVersion [(Sprintd a ++ "." ++ Sprintd b ++ "." ++ Sprintd c, u)]
                    inputs,
                  .NewOutputs u
                    { Major := a.toNat, Minor := b.toNat, Patch := c.toNat,
                      Original := Sprintd a ++ "." ++ Sprintd b ++ "." ++ Sprintd c },
                  .Write written]
                panic := none
                closed := true } ∧
            written.get? "version" = some (Sprintd a ++ "." ++ Sprintd b ++ "." ++ Sprintd c) ∧
            written.get? "uri" = some u) ∧
        (∀ err, failure u
            { Major := a.toNat, Minor := b.toNat, Patch := c.toNat,
              Original := Sprintd a ++ "." ++ Sprintd b ++ "." ++ Sprintd c } = some err →
          (main (modelWorld satisfies failure inputs get decode)).panic =
              some ("unable to create outputs\n" ++ err) ∧
            (main (modelWorld satisfies failure inputs get decode)).stdout = [])) := by
  refine ⟨events_take_three (modelWorld satisfies failure inputs get decode) t v
    { StatusCode := 200, Body := body } { JDKVersion := [a, b, c], URL := u } a b c []
    ht hv hget rfl hdec rfl, ?_⟩
  intro ha hb hc hsat
  have hsel := GetLatestVersion_single satisfies inputs a b c u ha hb hc hsat
  have hidx : StringMap.index [(Sprintd a ++ "." ++ Sprintd b ++ "." ++ Sprintd c, u)]
      (Sprintd a ++ "." ++ Sprintd b ++ "." ++ Sprintd c) = u := by
    simp [StringMap.index, StringMap.get?]
  constructor
  · intro hnone
    have hrun := main_written (modelWorld satisfies failure inputs get decode) t v
      { StatusCode := 200, Body := body } { JDKVersion := [a, b, c], URL := u } a b c []
      { Major := a.toNat, Minor := b.toNat, Patch := c.toNat,
        Original := Sprintd a ++ "." ++ Sprintd b ++ "." ++ Sprintd c }
      [("uri", u), ("version", Sprintd a ++ "." ++ Sprintd b ++ "." ++ Sprintd c)]
      ht hv hget rfl hdec rfl hsel (by
        show NewOutputs failure _ _ = _
        rw [hidx]
        unfold NewOutputs
        rw [hnone])
    rw [hidx] at hrun
    refine ⟨_, hrun, ?_, ?_⟩
    · by_cases h8 : a.toNat = 8
      · simp only [h8, if_true]
        rw [get?_assign_of_ne _ _ _ _ (by decide)]
        simp [StringMap.get?]
      · simp only [h8, if_false]
        simp [StringMap.get?]
    · by_cases h8 : a.toNat = 8
      · simp only [h8, if_true]
        rw [get?_assign_of_ne _ _ _ _ (by decide)]
        simp [StringMap.get?]
      · simp only [h8, if_false]
        simp [StringMap.get?]
  · intro err hsome
    have hrun := main_outputs (modelWorld satisfies failure inputs get decode) t v
      { StatusCode := 200, Body := body } { JDKVersion := [a, b, c], URL := u } a b c []
      { Major := a.toNat, Minor := b.toNat, Patch := c.toNat,
        Original := Sprintd a ++ "." ++ Sprintd b ++ "." ++ Sprintd c } err
      ht hv hget rfl hdec rfl hsel (by
        show NewOutputs failure _ _ = _
        rw [hidx]
        unfold NewOutputs
        rw [hsome])
    rw [hrun]
    exact ⟨rfl, rfl⟩

/-- Witness of C9 as amended: the catalog answers with version 11.0.9. -/
theorem version_output_witness :
    (main (exampleWorld 200
      { JDKVersion := [11, 0, 9], URL := "https://cdn.example/zulu11.tar.gz" })).stdout.map
        (fun written => (written.get? "version", written.get? "uri")) =
      [(some "11.0.9", some "https://cdn.example/zulu11.tar.gz")] := by
  obtain ⟨written, hrun, h1, h2⟩ :=
    ((version_output (fun _ _ => true) (fun _ _ => none) [("type", "jdk"), ("version", "11")]
      (fun _ => .ok { StatusCode := 200, Body := "body" })
      (fun _ => .ok { JDKVersion := [11, 0, 9], URL := "https://cdn.example/zulu11.tar.gz" })
      "jdk" "11" "body" "https://cdn.example/zulu11.tar.gz" 11 0 9 rfl rfl rfl rfl).2
      (by decide) (by decide) (by decide) rfl).1 rfl
  have hrun' : main (exampleWorld 200
      { JDKVersion := [11, 0, 9], URL := "https://cdn.example/zulu11.tar.gz" }) = _ := hrun
  rw [hrun']
  simp only [Run.stdout, List.filterMap_cons, List.filterMap_nil, List.map_cons, List.map_nil,
    h1, h2]
  rfl

/-- Counterexample to C9 as stated: with both inputs present and a status 200 response whose
`jdk_version` is the integer triple `[-1, 0, 0]`, the catalog is built but the selector finds
no version in it, and the run panics with nothing written; likewise for the triple
`[8, 0, 302]` when the caller's constraint admits major version 11 only; and for the triple
`[11, 0, 9]` when output construction returns an error. -/
theorem version_output_counterexample :
    ((main (exampleWorld 200 { JDKVersion := [-1, 0, 0], URL := "u" })).events =
        [.Get (uri "jdk" "11"), .Decode "body",
          .GetLatestVersion [("-1.0.0", "u")] [("type", "jdk"), ("version", "11")]] ∧
      (main (exampleWorld 200 { JDKVersion := [-1, 0, 0], URL := "u" })).stdout = [] ∧
      (main (exampleWorld 200 { JDKVersion := [-1, 0, 0], URL := "u" })).panic =
        some "unable to get latest version\nno version satisfies the constraint") ∧
    ((main (modelWorld (fun _ version => version.Major == 11) (fun _ _ => none)
        [("type", "jdk"), ("version", "11")]
        (fun _ => .ok { StatusCode := 200, Body := "body" })
        (fun _ => .ok { JDKVersion := [8, 0, 302], URL := "u" }))).stdout = [] ∧
      (main (modelWorld (fun _ version => version.Major == 11) (fun _ _ => none)
        [("type", "jdk"), ("version", "11")]
        (fun _ => .ok { StatusCode := 200, Body := "body" })
        (fun _ => .ok { JDKVersion := [8, 0, 302], URL := "u" }))).panic =
        some "unable to get latest version\nno version satisfies the constraint") ∧
    ((main (modelWorld (fun _ _ => true) (fun _ _ => some "unable to download")
        [("type", "jdk"), ("version", "11")]
        (fun _ => .ok { StatusCode := 200, Body := "body" })
        (fun _ => .ok { JDKVersion := [11, 0, 9], URL := "u" }))).stdout = [] ∧
      (main (modelWorld (fun _ _ => true) (fun _ _ => some "unable to download")
        [("type", "jdk"), ("version", "11")]
        (fun _ => .ok { StatusCode := 200, Body := "body" })
        (fun _ => .ok { JDKVersion := [11, 0, 9], URL := "u" }))).panic =
        some "unable to create outputs\nunable to download") := by
  decide

end AzulZulu
